import Mathlib

/-!
Verification of the Notion dashboard core (`src/notion-dashboard.py`): the
record flattener `parse_notion_data`, the fetch fallback `get_notion_data`,
the date conversion `convert_dates`, the label indices built by
`dict(zip(df["NotionID"], df["Nombre"]))`, and the relation resolution
(`x[0] if isinstance(x, list) and x else None`, then `.map(dict)` and
`.fillna(default)`) used for the dashboard columns.

The Python dynamics are embedded shallowly: JSON values are an inductive
`Json`; Python runtime exceptions (`AttributeError`, `TypeError`, `KeyError`)
are an error type threaded through `Except`; Python `dict.get`, truthiness,
`" ".join`, dict construction from `zip`, and pandas column access are
modelled by small total functions that fail exactly where CPython raises.
-/

namespace NotionDashboard

/-- JSON values as returned by `response.json()`.  Numbers are modelled as
integers: no claim inspects fractional values, and the decoding logic under
verification only moves numbers around or substitutes the default `0`. -/
inductive Json where
  | null : Json
  | str (s : String) : Json
  | num (n : Int) : Json
  | bool (b : Bool) : Json
  | arr (elems : List Json) : Json
  | obj (fields : List (String × Json)) : Json
deriving Repr

/-- The Python runtime errors the flattening and indexing code can raise:
`AttributeError` (calling `.get` on a non-dict, including `None`),
`TypeError` (iterating a non-iterable, or `str.join` over non-strings),
`KeyError` (pandas column access on a frame lacking the column). -/
inductive PyErr where
  | attrError : PyErr
  | typeError : PyErr
  | keyError : PyErr
deriving Repr, DecidableEq

mutual

/-- Structural equality of JSON values (Python `==` on the values the
program compares; the Python conflation of `True` with `1` is not exercised
by any identifier the code ever uses as a dict key). -/
def Json.beq : Json → Json → Bool
  | .null, .null => true
  | .str a, .str b => a == b
  | .num a, .num b => a == b
  | .bool a, .bool b => a == b
  | .arr xs, .arr ys => Json.beqList xs ys
  | .obj fs, .obj gs => Json.beqFields fs gs
  | _, _ => false

/-- Equality of JSON arrays, elementwise. -/
def Json.beqList : List Json → List Json → Bool
  | [], [] => true
  | x :: xs, y :: ys => Json.beq x y && Json.beqList xs ys
  | _, _ => false

/-- Equality of JSON object field lists, in order. -/
def Json.beqFields : List (String × Json) → List (String × Json) → Bool
  | [], [] => true
  | (k, v) :: fs, (l, w) :: gs => k == l && Json.beq v w && Json.beqFields fs gs
  | _, _ => false

end

/-- Lookup in a Python dict with string keys (first matching key; Python
dicts keep keys unique, and `dictSet` preserves that). -/
def dictGet : List (String × Json) → String → Option Json
  | [], _ => none
  | (k, v) :: rest, key => if k = key then some v else dictGet rest key

/-- `fields.get(key, dflt)` on a dict value: the stored value when the key
is present (even when that value is `None`), otherwise the default. -/
def dictGetD (fields : List (String × Json)) (key : String) (dflt : Json) : Json :=
  (dictGet fields key).getD dflt

/-- Python dict assignment `d[key] = v`: overwrites in place when the key is
present, otherwise appends (insertion order preserved). -/
def dictSet : List (String × Json) → String → Json → List (String × Json)
  | [], key, v => [(key, v)]
  | (k, w) :: rest, key, v =>
      if k = key then (key, v) :: rest else (k, w) :: dictSet rest key v

/-- Python `j.get(key, dflt)`: succeeds on dicts, raises `AttributeError` on
every other value (`None`, strings, lists, numbers, booleans have no `.get`
method). -/
def pyGet (j : Json) (key : String) (dflt : Json) : Except PyErr Json :=
  match j with
  | .obj fields => .ok (dictGetD fields key dflt)
  | _ => .error .attrError

/-- Python truthiness of a JSON value. -/
def Json.truthy : Json → Bool
  | .null => false
  | .str s => !s.isEmpty
  | .num n => if n = 0 then false else true
  | .bool b => b
  | .arr xs => !xs.isEmpty
  | .obj fs => !fs.isEmpty

/-- Is the value a dict? -/
def Json.isObj : Json → Bool
  | .obj _ => true
  | _ => false

/-- A flat record: the Python dict `record` built per raw record (insertion
order preserved, starting with the reserved `NotionID` entry). -/
abbrev FlatRecord := List (String × Json)

/-- The list comprehension `[t.get(key, dflt) for t in ts]`: each element
must be a dict (a non-dict element raises `AttributeError`), and the whole
list of extracted values is returned. -/
def listGet (key : String) (dflt : Json) : List Json → Except PyErr (List Json)
  | [] => .ok []
  | t :: ts =>
      match pyGet t key dflt with
      | .error e => .error e
      | .ok v =>
          match listGet key dflt ts with
          | .error e => .error e
          | .ok vs => .ok (v :: vs)

/-- Are all values strings?  Returns them unwrapped when so. -/
def asStrings : List Json → Option (List String)
  | [] => some []
  | Json.str s :: rest => (asStrings rest).map (fun ss => s :: ss)
  | _ => none

/-- Python `sep.join(vals)`: concatenates when every value is a `str`,
raises `TypeError` otherwise (e.g. when one extracted value is `None` or a
number). -/
def strJoin (sep : String) (vals : List Json) : Except PyErr String :=
  match asStrings vals with
  | some ss => .ok (String.intercalate sep ss)
  | none => .error .typeError

/-- `sep.join([t.get(key, "") for t in spans])` for a truthy `spans` value:
iterating a JSON array extracts per-element values and joins them; iterating
a (non-empty) string or dict yields strings on which `.get` raises
`AttributeError`; numbers, booleans and `None` are not iterable
(`TypeError`). -/
def joinTexts (sep key : String) (spans : Json) : Except PyErr Json :=
  match spans with
  | .arr ts =>
      match listGet key (.str "") ts with
      | .error e => .error e
      | .ok vals =>
          match strJoin sep vals with
          | .ok s => .ok (.str s)
          | .error e => .error e
  | .str _ => .error .attrError
  | .obj _ => .error .attrError
  | _ => .error .typeError

/-- `title` decoding: `" ".join([t.get("plain_text", "") for t in
props.get(col, {}).get("title", [])]) if titles else ""`. -/
def decodeTitle (props : Json) (col : String) : Except PyErr Json :=
  match pyGet props col (.obj []) with
  | .error e => .error e
  | .ok v =>
      match pyGet v "title" (.arr []) with
      | .error e => .error e
      | .ok titles =>
          if titles.truthy then joinTexts " " "plain_text" titles
          else .ok (.str "")

/-- `select` decoding: `props.get(col, {}).get("select", {}).get("name", "")`.
Note the middle `.get` returns the stored value even when it is `None`, so a
present-but-null `select` raises `AttributeError` on the final `.get`. -/
def decodeSelect (props : Json) (col : String) : Except PyErr Json :=
  match pyGet props col (.obj []) with
  | .error e => .error e
  | .ok v =>
      match pyGet v "select" (.obj []) with
      | .error e => .error e
      | .ok sel => pyGet sel "name" (.str "")

/-- `multi_select` decoding: `", ".join([item.get("name", "") for item in
multi]) if multi else ""`. -/
def decodeMultiSelect (props : Json) (col : String) : Except PyErr Json :=
  match pyGet props col (.obj []) with
  | .error e => .error e
  | .ok v =>
      match pyGet v "multi_select" (.arr []) with
      | .error e => .error e
      | .ok multi =>
          if multi.truthy then joinTexts ", " "name" multi
          else .ok (.str "")

/-- `date` decoding: `value = props.get(col)`; when `value` is a dict with a
truthy `"date"` entry the result is `value["date"].get("start", "")`,
otherwise the empty string. -/
def decodeDate (props : Json) (col : String) : Except PyErr Json :=
  match pyGet props col .null with
  | .error e => .error e
  | .ok v =>
      match v with
      | .obj vf =>
          match dictGet vf "date" with
          | some dv => if dv.truthy then pyGet dv "start" (.str "") else .ok (.str "")
          | none => .ok (.str "")
      | _ => .ok (.str "")

/-- `number` decoding: `props.get(col, {}).get("number", 0)`.  A present but
null nested value is returned as-is (Python `None`), not replaced by 0. -/
def decodeNumber (props : Json) (col : String) : Except PyErr Json :=
  match pyGet props col (.obj []) with
  | .error e => .error e
  | .ok v => pyGet v "number" (.num 0)

/-- `relation` decoding: `[item.get("id", "") for item in rel] if rel else
[]` where `rel = props.get(col, {}).get("relation", [])`. -/
def decodeRelation (props : Json) (col : String) : Except PyErr Json :=
  match pyGet props col (.obj []) with
  | .error e => .error e
  | .ok v =>
      match pyGet v "relation" (.arr []) with
      | .error e => .error e
      | .ok rel =>
          if rel.truthy then
            match rel with
            | .arr items =>
                match listGet "id" (.str "") items with
                | .error e => .error e
                | .ok ids => .ok (.arr ids)
            | .str _ => .error .attrError
            | .obj _ => .error .attrError
            | _ => .error .typeError
          else .ok (.arr [])

/-- `rich_text` decoding: like `title` but under the `"rich_text"` key. -/
def decodeRichText (props : Json) (col : String) : Except PyErr Json :=
  match pyGet props col (.obj []) with
  | .error e => .error e
  | .ok v =>
      match pyGet v "rich_text" (.arr []) with
      | .error e => .error e
      | .ok rich =>
          if rich.truthy then joinTexts " " "plain_text" rich
          else .ok (.str "")

/-- `phone_number` decoding: `props.get(col, {}).get("phone_number", "")`. -/
def decodePhone (props : Json) (col : String) : Except PyErr Json :=
  match pyGet props col (.obj []) with
  | .error e => .error e
  | .ok v => pyGet v "phone_number" (.str "")

/-- `email` decoding: `props.get(col, {}).get("email", "")`. -/
def decodeEmail (props : Json) (col : String) : Except PyErr Json :=
  match pyGet props col (.obj []) with
  | .error e => .error e
  | .ok v => pyGet v "email" (.str "")

/-- The per-column dispatch of `parse_notion_data` on the declared kind, in
source order; an unrecognized kind stores the empty string without touching
the raw properties. -/
def decodeProp (props : Json) (col kind : String) : Except PyErr Json :=
  if kind = "title" then decodeTitle props col
  else if kind = "select" then decodeSelect props col
  else if kind = "multi_select" then decodeMultiSelect props col
  else if kind = "date" then decodeDate props col
  else if kind = "number" then decodeNumber props col
  else if kind = "relation" then decodeRelation props col
  else if kind = "rich_text" then decodeRichText props col
  else if kind = "phone_number" then decodePhone props col
  else if kind = "email" then decodeEmail props col
  else .ok (.str "")

/-- The inner loop `for col, col_type in mapping.items(): record[col] = ...`
starting from an accumulator record; the mapping is the Python dict's
items in insertion order. -/
def flattenProps (props : Json) (mapping : List (String × String))
    (init : FlatRecord) : Except PyErr FlatRecord :=
  match mapping with
  | [] => .ok init
  | (c, k) :: rest =>
      match decodeProp props c k with
      | .error e => .error e
      | .ok v => flattenProps props rest (dictSet init c v)

/-- One iteration of the outer loop of `parse_notion_data`: read the page
id and properties of one raw record (raising `AttributeError` when the
record is not a dict) and build the flat record, whose first entry is the
reserved `NotionID`. -/
def parseRecord (mapping : List (String × String)) (result : Json) :
    Except PyErr FlatRecord :=
  match pyGet result "id" (.str "") with
  | .error e => .error e
  | .ok pageId =>
      match pyGet result "properties" (.obj []) with
      | .error e => .error e
      | .ok props => flattenProps props mapping [("NotionID", pageId)]

/-- The outer loop over `data.get("results", [])` for a list of raw
records. -/
def parseResults (mapping : List (String × String)) :
    List Json → Except PyErr (List FlatRecord)
  | [] => .ok []
  | r :: rs =>
      match parseRecord mapping r with
      | .error e => .error e
      | .ok rec =>
          match parseResults mapping rs with
          | .error e => .error e
          | .ok t => .ok (rec :: t)

/-- `parse_notion_data(data, mapping)`: iterate over `data.get("results",
[])`.  Iterating a JSON array visits its records; an empty dict or empty
string iterates zero times (empty frame); any other non-list `results`
raises on the first iteration or is not iterable at all. -/
def parse_notion_data (data : Json) (mapping : List (String × String)) :
    Except PyErr (List FlatRecord) :=
  match pyGet data "results" (.arr []) with
  | .error e => .error e
  | .ok results =>
      match results with
      | .arr rs => parseResults mapping rs
      | .str s => if s.isEmpty then .ok [] else .error .attrError
      | .obj fs => if fs.isEmpty then .ok [] else .error .attrError
      | _ => .error .typeError

/-- An HTTP response from the Notion query endpoint: status code and JSON
body. -/
structure HttpResponse where
  status : Nat
  body : Json

/-- `get_notion_data`: returns the parsed JSON on status 200, otherwise
shows an error in the UI and returns `None`. -/
def get_notion_data (resp : HttpResponse) : Option Json :=
  if resp.status = 200 then some resp.body else none

/-- `parse_notion_data(data, mapping) if data else pd.DataFrame()`: the
flat table for one entity table.  A `None` (failed fetch) or falsy body
yields the empty frame without calling the flattener. -/
def tableOf (resp : HttpResponse) (mapping : List (String × String)) :
    Except PyErr (List FlatRecord) :=
  match get_notion_data resp with
  | some data => if data.truthy then parse_notion_data data mapping else .ok []
  | none => .ok []

/-- The columns of `pd.DataFrame(records)`: the union of the records' keys
in order of first appearance. -/
def addCols (cols : List String) (rec : FlatRecord) : List String :=
  rec.foldl (fun cs kv => if kv.1 ∈ cs then cs else cs ++ [kv.1]) cols

/-- Columns of a data frame built from a list of record dicts. -/
def dfColumns (df : List FlatRecord) : List String :=
  df.foldl addCols []

/-- `df[col]`: the column as a list of cell values (missing keys read as
`NaN`, modelled `null`); raises `KeyError` when the frame has no such
column — in particular on the empty frame `pd.DataFrame()`, which has no
columns at all. -/
def seriesGet (df : List FlatRecord) (col : String) : Except PyErr (List Json) :=
  if col ∈ dfColumns df then .ok (df.map (fun r => dictGetD r col .null))
  else .error .keyError

/-- Models the library call `pd.to_datetime(cell, errors="coerce")` at cell
level: a total coercion that never raises; unparsed values become `NaT`
(modelled `null`) and parsed strings are kept under a `datetime` wrapper.
No claim inspects the parsed value, only that the conversion is total, so
parse success is abstracted as: non-empty strings parse. -/
def to_datetime_coerce (v : Json) : Json :=
  match v with
  | .str s => if s.isEmpty then .null else .obj [("datetime", .str s)]
  | _ => .null

/-- `convert_dates(df, mapping)`: for each declared `date` column present in
the frame, replace the column by its coerced values. -/
def convert_dates (df : List FlatRecord) (mapping : List (String × String)) :
    List FlatRecord :=
  mapping.foldl
    (fun acc ck =>
      if ck.2 = "date" ∧ ck.1 ∈ dfColumns acc then
        acc.map (fun r => dictSet r ck.1 (to_datetime_coerce (dictGetD r ck.1 .null)))
      else acc)
    df

/-- Lookup in a Python dict keyed by arbitrary (hashable) values. -/
def assocGet : List (Json × Json) → Json → Option Json
  | [], _ => none
  | (k, v) :: rest, key => if Json.beq k key then some v else assocGet rest key

/-- Assignment into a Python dict keyed by arbitrary values: overwrite in
place or append. -/
def assocSet : List (Json × Json) → Json → Json → List (Json × Json)
  | [], key, v => [(key, v)]
  | (k, w) :: rest, key, v =>
      if Json.beq k key then (key, v) :: rest else (k, w) :: assocSet rest key v

/-- Build a dict by inserting the pairs left to right (later pairs
overwrite earlier ones with the same key). -/
def buildDict (init : List (Json × Json)) (ps : List (Json × Json)) :
    List (Json × Json) :=
  ps.foldl (fun d kv => assocSet d kv.1 kv.2) init

/-- `dict(zip(ids, labels))`. -/
def dictZip (ids labels : List Json) : List (Json × Json) :=
  buildDict [] (ids.zip labels)

/-- The value the last pair with the given key assigns, if any. -/
def lastWrite : List (Json × Json) → Json → Option Json
  | [], _ => none
  | kv :: ps, k =>
      match lastWrite ps k with
      | some v => some v
      | none => if Json.beq kv.1 k then some kv.2 else none

/-- `dict(zip(df["NotionID"], df["Nombre"]))`: the identifier-to-label
index for one entity table (raises `KeyError` on a frame without those
columns, e.g. the empty frame left by a failed fetch). -/
def buildLabelIndex (df : List FlatRecord) : Except PyErr (List (Json × Json)) :=
  match seriesGet df "NotionID" with
  | .error e => .error e
  | .ok ids =>
      match seriesGet df "Nombre" with
      | .error e => .error e
      | .ok names => .ok (dictZip ids names)

/-- Schema of the projects table (`mapping_proyectos`). -/
def mapping_proyectos : List (String × String) :=
  [("Nombre", "title"),
   ("Estado del Proyecto", "select"),
   ("Fecha de Inicio Estimada", "date"),
   ("Fecha de Finalización Estimada", "date"),
   ("Fecha de Inicio Real", "date"),
   ("Fecha de Finalización Real", "date"),
   ("Valor", "number"),
   ("Descripción", "rich_text"),
   ("👥 Célula", "relation"),
   ("💸 Cliente/Empresa", "relation"),
   ("📝 Producto/Servicio", "relation")]

/-- Schema of the cells table (`mapping_celulas`). -/
def mapping_celulas : List (String × String) :=
  [("Nombre", "title"),
   ("Fecha de Creación", "date"),
   ("Descripción", "rich_text"),
   ("Personas Asociadas", "relation"),
   ("📝 Producto/Servicio", "relation"),
   ("💼 Proyecto", "relation"),
   ("Estado", "select")]

/-- Schema of the products table (`mapping_productos`). -/
def mapping_productos : List (String × String) :=
  [("Nombre", "title"),
   ("Descripción", "rich_text"),
   ("Precio", "number"),
   ("Fecha de lanzamiento", "date"),
   ("💼 Proyecto", "relation"),
   ("👥 Célula", "relation"),
   ("Estado de Producto", "select")]

/-- Schema of the clients table (`mapping_clientes`). -/
def mapping_clientes : List (String × String) :=
  [("Nombre", "title"),
   ("Sector", "select"),
   ("Dirección", "rich_text"),
   ("Tamaño", "select"),
   ("Fecha de Registro", "date"),
   ("💼 Proyecto", "relation"),
   ("Estado de Cliente", "select"),
   ("Personas Asociadas", "relation")]

/-- Schema of the people table (`mapping_personas`). -/
def mapping_personas : List (String × String) :=
  [("Nombre", "title"),
   ("Estado", "select"),
   ("Cargo", "rich_text"),
   ("Mail", "email"),
   ("Teléfono", "phone_number"),
   ("💸 Cliente/Empresa", "relation"),
   ("👥 Célula", "relation"),
   ("Fecha de Registro", "date"),
   ("Tipo Persona", "multi_select")]

/-- Everything the module-level pipeline produces up to and including the
label indices (lines 156-195 of the source): the five converted frames and
the four identifier-to-name dicts. -/
structure PipelineResult where
  dfProyectos : List FlatRecord
  dfCelulas : List FlatRecord
  dfProductos : List FlatRecord
  dfClientes : List FlatRecord
  dfPersonas : List FlatRecord
  clientDict : List (Json × Json)
  celulaDict : List (Json × Json)
  productoDict : List (Json × Json)
  personaDict : List (Json × Json)

/-- The module-level pipeline in source order: fetch the five tables with
the empty-frame fallback, convert the date columns, then build the four
label indices (clients, cells, products, people). -/
def runPipeline (rP rCe rPr rCl rPe : HttpResponse) : Except PyErr PipelineResult :=
  match tableOf rP mapping_proyectos with
  | .error e => .error e
  | .ok dfP0 =>
    match tableOf rCe mapping_celulas with
    | .error e => .error e
    | .ok dfCe0 =>
      match tableOf rPr mapping_productos with
      | .error e => .error e
      | .ok dfPr0 =>
        match tableOf rCl mapping_clientes with
        | .error e => .error e
        | .ok dfCl0 =>
          match tableOf rPe mapping_personas with
          | .error e => .error e
          | .ok dfPe0 =>
            match buildLabelIndex (convert_dates dfCl0 mapping_clientes) with
            | .error e => .error e
            | .ok cd =>
              match buildLabelIndex (convert_dates dfCe0 mapping_celulas) with
              | .error e => .error e
              | .ok ced =>
                match buildLabelIndex (convert_dates dfPr0 mapping_productos) with
                | .error e => .error e
                | .ok prd =>
                  match buildLabelIndex (convert_dates dfPe0 mapping_personas) with
                  | .error e => .error e
                  | .ok ped =>
                      .ok (PipelineResult.mk
                        (convert_dates dfP0 mapping_proyectos)
                        (convert_dates dfCe0 mapping_celulas)
                        (convert_dates dfPr0 mapping_productos)
                        (convert_dates dfCl0 mapping_clientes)
                        (convert_dates dfPe0 mapping_personas)
                        cd ced prd ped)

/-- `lambda x: x[0] if isinstance(x, list) and x else None` applied to a
relation cell. -/
def firstId (x : Json) : Json :=
  match x with
  | .arr (y :: _) => y
  | _ => .null

/-- One cell of `df[col].apply(first).map(labelIndex).fillna(default)`:
look the first identifier up in the label index; a miss produces `NaN`
which `fillna` replaces by the default label, and a stored `NaN` label is
likewise replaced. -/
def resolveRelation (cell : Json) (labelIndex : List (Json × Json))
    (defaultLabel : String) : Json :=
  match assocGet labelIndex (firstId cell) with
  | some lbl => if Json.beq lbl .null then .str defaultLabel else lbl
  | none => .str defaultLabel

/-- The default value the spec's table in §4.1 assigns to each kind for a
fully absent property: `0` for `number`, the empty list for `relation`,
the empty string for every other kind (including unrecognized ones). -/
def kindDefault (kind : String) : Json :=
  if kind = "number" then .num 0
  else if kind = "relation" then .arr []
  else .str ""

/-- Is one span element of a rich-text-like array harmless to decode: a
dict whose extracted text value (defaulting to `""`) is a string? -/
def spanOk (key : String) (x : Json) : Bool :=
  match x with
  | .obj xf =>
      match dictGetD xf key (.str "") with
      | .str _ => true
      | _ => false
  | _ => false

/-- Is a rich-text-like value harmless to decode: falsy (decodes to the
empty string) or an array of well-shaped spans? -/
def spansOk (key : String) (t : Json) : Bool :=
  if t.truthy then
    match t with
    | .arr ts => ts.all (spanOk key)
    | _ => false
  else true

/-- Does decoding a *present* property value of the given kind avoid every
Python exception?  This records exactly the dereferences the source
performs per kind. -/
def wellShapedProp (kind : String) (v : Json) : Bool :=
  if kind = "title" then
    match v with
    | .obj vf => spansOk "plain_text" (dictGetD vf "title" (.arr []))
    | _ => false
  else if kind = "select" then
    match v with
    | .obj vf => (dictGetD vf "select" (.obj [])).isObj
    | _ => false
  else if kind = "multi_select" then
    match v with
    | .obj vf => spansOk "name" (dictGetD vf "multi_select" (.arr []))
    | _ => false
  else if kind = "date" then
    match v with
    | .obj vf =>
        match dictGet vf "date" with
        | some dv => !dv.truthy || dv.isObj
        | none => true
    | _ => true
  else if kind = "number" then v.isObj
  else if kind = "relation" then
    match v with
    | .obj vf =>
        match dictGetD vf "relation" (.arr []) with
        | .arr items => items.all Json.isObj
        | rel => !rel.truthy
    | _ => false
  else if kind = "rich_text" then
    match v with
    | .obj vf => spansOk "plain_text" (dictGetD vf "rich_text" (.arr []))
    | _ => false
  else if kind = "phone_number" then v.isObj
  else if kind = "email" then v.isObj
  else true

/-- Is the property for a column harmless to decode: absent, or present
and well-shaped for the declared kind? -/
def wellShapedAt (pfields : List (String × Json)) (col kind : String) : Bool :=
  match dictGet pfields col with
  | some v => wellShapedProp kind v
  | none => true

/-- Is a raw record harmless to flatten under a schema: a dict whose
`properties` value (defaulting to `{}`) is a dict in which every declared
column is absent or well-shaped? -/
def wellShapedRecord (mapping : List (String × String)) (r : Json) : Bool :=
  match r with
  | .obj rfields =>
      match dictGetD rfields "properties" (.obj []) with
      | .obj pfields => mapping.all (fun ck => wellShapedAt pfields ck.1 ck.2)
      | _ => false
  | _ => false

/-! ## Equality of JSON values -/

/-- `Json.beq` decides propositional equality. -/
@[simp] theorem Json.beq_eq_true_iff : ∀ a b : Json, Json.beq a b = true ↔ a = b := by
  refine Json.beq.induct (fun a b => Json.beq a b = true ↔ a = b)
    (fun fs gs => Json.beqFields fs gs = true ↔ fs = gs)
    (fun xs ys => Json.beqList xs ys = true ↔ xs = ys)
    ?_ ?_ ?_ ?_ ?_ ?_ ?_ ?_ ?_ ?_ ?_ ?_ ?_
  · simp [Json.beq]
  · intro a b; simp [Json.beq]
  · intro a b; simp [Json.beq]
  · intro a b; simp [Json.beq]
  · intro xs ys ih; simp [Json.beq, ih]
  · intro fs gs ih; simp [Json.beq, ih]
  · intro t x h1 h2 h3 h4 h5 h6
    cases t <;> cases x <;>
      first
        | exact (h1 rfl rfl).elim
        | (exfalso; exact h2 _ _ rfl rfl)
        | (exfalso; exact h3 _ _ rfl rfl)
        | (exfalso; exact h4 _ _ rfl rfl)
        | (exfalso; exact h5 _ _ rfl rfl)
        | (exfalso; exact h6 _ _ rfl rfl)
        | simp [Json.beq]
  · simp [Json.beqList]
  · intro x xs y ys ih1 ih2; simp [Json.beqList, ih1, ih2]
  · intro t x h1 h2
    cases t <;> cases x <;>
      first
        | (exfalso; exact h1 rfl rfl)
        | (exfalso; exact h2 _ _ _ _ rfl rfl)
        | simp [Json.beqList]
  · simp [Json.beqFields]
  · intro k v fs l w gs ih1 ih2
    simp [Json.beqFields, ih1, ih2, and_assoc]
  · intro t x h1 h2
    cases t with
    | nil =>
      cases x with
      | nil => exact (h1 rfl rfl).elim
      | cons q qs => simp [Json.beqFields]
    | cons p ps =>
      cases x with
      | nil => simp [Json.beqFields]
      | cons q qs => exact (h2 p.1 p.2 ps q.1 q.2 qs rfl rfl).elim

/-! ## Dict (string-keyed) lemmas -/

/-- Reading the key just written. -/
theorem dictGet_dictSet_self (d : List (String × Json)) (k : String) (v : Json) :
    dictGet (dictSet d k v) k = some v := by
  induction d with
  | nil => simp [dictSet, dictGet]
  | cons kv rest ih =>
    obtain ⟨k', w⟩ := kv
    by_cases h : k' = k
    · simp [dictSet, h, dictGet]
    · simp [dictSet, h, dictGet, ih]

/-- Writing one key leaves every other key unchanged. -/
theorem dictGet_dictSet_ne (d : List (String × Json)) (k key : String) (v : Json)
    (h : key ≠ k) : dictGet (dictSet d k v) key = dictGet d key := by
  induction d with
  | nil => simp [dictSet, dictGet, Ne.symm h]
  | cons kv rest ih =>
    obtain ⟨k', w⟩ := kv
    by_cases h' : k' = k
    · subst h'
      simp [dictSet, dictGet, Ne.symm h]
    · simp [dictSet, dictGet, h', ih]

/-- Presence of a key after a write: the written key, or anything already
present. -/
theorem dictGet_dictSet_isSome (d : List (String × Json)) (k key : String) (v : Json) :
    (dictGet (dictSet d k v) key).isSome = true ↔
      key = k ∨ (dictGet d key).isSome = true := by
  by_cases h : key = k
  · subst h; simp [dictGet_dictSet_self]
  · simp [dictGet_dictSet_ne d k key v h, h]

/-! ## Dict (JSON-keyed) lemmas -/

/-- Reading the key just inserted. -/
theorem assocGet_assocSet_self (d : List (Json × Json)) (k v : Json) :
    assocGet (assocSet d k v) k = some v := by
  induction d with
  | nil => simp [assocSet, assocGet]
  | cons kv rest ih =>
    obtain ⟨k', w⟩ := kv
    by_cases h : k' = k
    · simp [assocSet, assocGet, h]
    · simp [assocSet, assocGet, h, ih]

/-- Inserting one key leaves every other key unchanged. -/
theorem assocGet_assocSet_ne (d : List (Json × Json)) (k key v : Json)
    (h : key ≠ k) : assocGet (assocSet d k v) key = assocGet d key := by
  induction d with
  | nil => simp [assocSet, assocGet, Ne.symm h]
  | cons kv rest ih =>
    obtain ⟨k', w⟩ := kv
    by_cases h' : k' = k
    · subst h'
      simp [assocSet, assocGet, Ne.symm h]
    · simp [assocSet, assocGet, h', ih]

/-- Looking a key up after building a dict from pairs: the last pair with
that key wins, and otherwise the initial dict is consulted. -/
theorem assocGet_buildDict (ps : List (Json × Json)) :
    ∀ (init : List (Json × Json)) (k : Json),
      assocGet (buildDict init ps) k =
        match lastWrite ps k with
        | some v => some v
        | none => assocGet init k := by
  induction ps with
  | nil => intro init k; simp [buildDict, lastWrite]
  | cons kv rest ih =>
    intro init k
    have hb : buildDict init (kv :: rest) = buildDict (assocSet init kv.1 kv.2) rest := rfl
    rw [hb, ih]
    cases hlw : lastWrite rest k with
    | some v => simp [lastWrite, hlw]
    | none =>
      simp only [lastWrite, hlw]
      by_cases h : kv.1 = k
      · subst h; simp [assocGet_assocSet_self]
      · simp [h, assocGet_assocSet_ne _ _ _ _ (fun hh => h hh.symm)]

/-- The last write over a concatenation. -/
theorem lastWrite_append (a b : List (Json × Json)) (k : Json) :
    lastWrite (a ++ b) k =
      match lastWrite b k with
      | some v => some v
      | none => lastWrite a k := by
  induction a with
  | nil =>
    simp only [List.nil_append]
    cases hlw : lastWrite b k <;> simp [lastWrite, hlw]
  | cons kv rest ih =>
    show (match lastWrite (rest ++ b) k with
      | some v => some v
      | none => if Json.beq kv.1 k then some kv.2 else none) = _
    rw [ih]
    cases hlw : lastWrite b k with
    | some v => simp
    | none => simp [lastWrite]

/-- No pair carries the key: no last write. -/
theorem lastWrite_eq_none (ps : List (Json × Json)) (k : Json)
    (h : ∀ kv ∈ ps, kv.1 ≠ k) : lastWrite ps k = none := by
  induction ps with
  | nil => rfl
  | cons kv rest ih =>
    have h1 : kv.1 ≠ k := h kv (List.mem_cons_self kv rest)
    have h2 : lastWrite rest k = none := ih (fun kv' hm => h kv' (List.mem_cons_of_mem kv hm))
    simp [lastWrite, h2, h1]

/-! ## Flattening loop lemmas -/

/-- Columns not named in the mapping are untouched by the inner loop. -/
theorem flattenProps_get_of_not_mem (props : Json) (mapping : List (String × String)) :
    ∀ (init rec : FlatRecord) (K : String),
      K ∉ mapping.map Prod.fst →
      flattenProps props mapping init = .ok rec →
      dictGet rec K = dictGet init K := by
  induction mapping with
  | nil =>
    intro init rec K _ h
    simp only [flattenProps] at h
    cases h
    rfl
  | cons ck rest ih =>
    intro init rec K hK h
    obtain ⟨c, k⟩ := ck
    simp only [flattenProps] at h
    cases hd : decodeProp props c k with
    | error e => rw [hd] at h; cases h
    | ok v =>
      rw [hd] at h
      have hKs : K ≠ c ∧ K ∉ rest.map Prod.fst := by
        constructor
        · intro hc; exact hK (by simp [hc])
        · intro hm; exact hK (by simp [hm])
      rw [ih _ _ _ hKs.2 h, dictGet_dictSet_ne _ _ _ _ hKs.1]

/-- A column present in the accumulator stays present through the loop. -/
theorem flattenProps_isSome_mono (props : Json) (mapping : List (String × String)) :
    ∀ (init rec : FlatRecord) (K : String),
      (dictGet init K).isSome = true →
      flattenProps props mapping init = .ok rec →
      (dictGet rec K).isSome = true := by
  induction mapping with
  | nil =>
    intro init rec K hs h
    simp only [flattenProps] at h
    cases h
    exact hs
  | cons ck rest ih =>
    intro init rec K hs h
    obtain ⟨c, k⟩ := ck
    simp only [flattenProps] at h
    cases hd : decodeProp props c k with
    | error e => rw [hd] at h; cases h
    | ok v =>
      rw [hd] at h
      refine ih _ _ _ ?_ h
      rw [dictGet_dictSet_isSome]
      exact Or.inr hs

/-- The loop stores the decoded value of each mapped column (schemas have
unique keys, so no later iteration overwrites it). -/
theorem flattenProps_get_of_mem (props : Json) (mapping : List (String × String)) :
    ∀ (init rec : FlatRecord) (C kind : String) (v : Json),
      (C, kind) ∈ mapping →
      (mapping.map Prod.fst).Nodup →
      decodeProp props C kind = .ok v →
      flattenProps props mapping init = .ok rec →
      dictGet rec C = some v := by
  induction mapping with
  | nil => intro init rec C kind v hmem; simp at hmem
  | cons ck rest ih =>
    intro init rec C kind v hmem hnodup hdec h
    obtain ⟨c, k⟩ := ck
    simp only [flattenProps] at h
    rcases List.mem_cons.mp hmem with hhead | htail
    · obtain ⟨hc, hk⟩ := Prod.mk.injEq .. ▸ hhead
      cases hhead
      rw [hdec] at h
      have hnot : C ∉ rest.map Prod.fst := by
        simpa using (List.nodup_cons.mp hnodup).1
      rw [flattenProps_get_of_not_mem _ _ _ _ _ hnot h, dictGet_dictSet_self]
    · cases hd : decodeProp props c k with
      | error e => rw [hd] at h; cases h
      | ok w =>
        rw [hd] at h
        exact ih _ _ _ _ _ htail (List.nodup_cons.mp hnodup).2 hdec h

/-- The keys present after the loop: what was already present plus the
mapped columns. -/
theorem flattenProps_isSome_iff (props : Json) (mapping : List (String × String)) :
    ∀ (init rec : FlatRecord) (K : String),
      flattenProps props mapping init = .ok rec →
      ((dictGet rec K).isSome = true ↔
        (dictGet init K).isSome = true ∨ K ∈ mapping.map Prod.fst) := by
  induction mapping with
  | nil =>
    intro init rec K h
    simp only [flattenProps] at h
    cases h
    simp
  | cons ck rest ih =>
    intro init rec K h
    obtain ⟨c, k⟩ := ck
    simp only [flattenProps] at h
    cases hd : decodeProp props c k with
    | error e => rw [hd] at h; cases h
    | ok v =>
      rw [hd] at h
      rw [ih _ _ _ h, dictGet_dictSet_isSome]
      constructor
      · rintro ((hKc | hs) | hm)
        · exact Or.inr (by simp [hKc])
        · exact Or.inl hs
        · exact Or.inr (by simp [hm])
      · rintro (hs | hm)
        · exact Or.inl (Or.inr hs)
        · rcases (by simpa using hm : K = c ∨ K ∈ rest.map Prod.fst) with hKc | hm'
          · exact Or.inl (Or.inl hKc)
          · exact Or.inr hm'

/-- The loop succeeds as soon as every declared column decodes. -/
theorem flattenProps_total (props : Json) (mapping : List (String × String)) :
    ∀ (init : FlatRecord),
      (∀ ck ∈ mapping, ∃ v, decodeProp props ck.1 ck.2 = .ok v) →
      ∃ rec, flattenProps props mapping init = .ok rec := by
  induction mapping with
  | nil => intro init _; exact ⟨init, rfl⟩
  | cons ck rest ih =>
    intro init hdec
    obtain ⟨c, k⟩ := ck
    obtain ⟨v, hv⟩ := hdec (c, k) (List.mem_cons_self _ _)
    obtain ⟨rec, hrec⟩ := ih (dictSet init c v)
      (fun ck' hm => hdec ck' (List.mem_cons_of_mem _ hm))
    exact ⟨rec, by simp only [flattenProps]; rw [hv]; exact hrec⟩

/-! ## Per-record and per-page lemmas -/

/-- On a dict record, `parseRecord` is the inner loop seeded with the
reserved `NotionID` entry. -/
theorem parseRecord_obj (mapping : List (String × String)) (rfields : List (String × Json)) :
    parseRecord mapping (.obj rfields) =
      flattenProps (dictGetD rfields "properties" (.obj [])) mapping
        [("NotionID", dictGetD rfields "id" (.str ""))] := rfl

/-- A successfully flattened record came from a dict. -/
theorem parseRecord_ok_obj (mapping : List (String × String)) (r : Json) (rec : FlatRecord)
    (h : parseRecord mapping r = .ok rec) : ∃ rfields, r = .obj rfields := by
  cases r with
  | obj rfields => exact ⟨rfields, rfl⟩
  | null => simp [parseRecord, pyGet] at h
  | str s => simp [parseRecord, pyGet] at h
  | num n => simp [parseRecord, pyGet] at h
  | bool b => simp [parseRecord, pyGet] at h
  | arr xs => simp [parseRecord, pyGet] at h

/-- A successful page parse yields one flat record per raw record, in
order. -/
theorem parseResults_spec (mapping : List (String × String)) :
    ∀ (rs : List Json) (t : List FlatRecord),
      parseResults mapping rs = .ok t →
      t.length = rs.length ∧
        ∀ i (hi : i < t.length) (hi' : i < rs.length),
          parseRecord mapping rs[i] = .ok t[i] := by
  intro rs
  induction rs with
  | nil =>
    intro t h
    simp only [parseResults] at h
    cases h
    exact ⟨rfl, fun i hi => absurd hi (by simp)⟩
  | cons r rs' ih =>
    intro t h
    simp only [parseResults] at h
    cases hr : parseRecord mapping r with
    | error e => rw [hr] at h; cases h
    | ok rec =>
      rw [hr] at h
      cases hrest : parseResults mapping rs' with
      | error e => rw [hrest] at h; cases h
      | ok t' =>
        rw [hrest] at h
        cases h
        obtain ⟨hlen, hpt⟩ := ih t' hrest
        refine ⟨by simp [hlen], ?_⟩
        intro i hi hi'
        cases i with
        | zero => simpa using hr
        | succ n =>
          have hn : n < t'.length := by simpa using hi
          have hn' : n < rs'.length := by simpa using hi'
          simpa using hpt n hn hn'

/-- Every record of a successful page parse is the flattening of some raw
record of the page. -/
theorem parseResults_mem (mapping : List (String × String)) :
    ∀ (rs : List Json) (t : List FlatRecord) (rec : FlatRecord),
      parseResults mapping rs = .ok t →
      rec ∈ t →
      ∃ r ∈ rs, parseRecord mapping r = .ok rec := by
  intro rs
  induction rs with
  | nil =>
    intro t rec h hm
    simp only [parseResults] at h
    cases h
    simp at hm
  | cons r rs' ih =>
    intro t rec h hm
    simp only [parseResults] at h
    cases hr : parseRecord mapping r with
    | error e => rw [hr] at h; cases h
    | ok rec' =>
      rw [hr] at h
      cases hrest : parseResults mapping rs' with
      | error e => rw [hrest] at h; cases h
      | ok t' =>
        rw [hrest] at h
        cases h
        rcases List.mem_cons.mp hm with hh | ht
        · exact ⟨r, List.mem_cons_self _ _, hh ▸ hr⟩
        · obtain ⟨r', hr', hok⟩ := ih t' rec hrest ht
          exact ⟨r', List.mem_cons_of_mem _ hr', hok⟩

/-- The page loop succeeds as soon as every raw record flattens. -/
theorem parseResults_total (mapping : List (String × String)) :
    ∀ (rs : List Json),
      (∀ r ∈ rs, ∃ rec, parseRecord mapping r = .ok rec) →
      ∃ t, parseResults mapping rs = .ok t := by
  intro rs
  induction rs with
  | nil => intro _; exact ⟨[], rfl⟩
  | cons r rs' ih =>
    intro hall
    obtain ⟨rec, hrec⟩ := hall r (List.mem_cons_self _ _)
    obtain ⟨t, ht⟩ := ih (fun r' hm => hall r' (List.mem_cons_of_mem _ hm))
    exact ⟨rec :: t, by simp only [parseResults]; rw [hrec, ht]⟩

/-! ## Decoding lemmas -/

/-- A fully absent property decodes to the kind's default for every kind. -/
theorem decodeProp_absent (pfields : List (String × Json)) (col kind : String)
    (h : dictGet pfields col = none) :
    decodeProp (.obj pfields) col kind = .ok (kindDefault kind) := by
  unfold decodeProp kindDefault
  split_ifs <;>
    simp_all [decodeTitle, decodeSelect, decodeMultiSelect, decodeDate, decodeNumber,
      decodeRelation, decodeRichText, decodePhone, decodeEmail,
      pyGet, dictGetD, dictGet, Json.truthy]

/-- A present `number` property whose nested value is `null` decodes to
`null` (Python `None`), not to the default `0`. -/
theorem decodeProp_number_null (pfields nfields : List (String × Json)) (col : String)
    (h1 : dictGet pfields col = some (.obj nfields))
    (h2 : dictGet nfields "number" = some .null) :
    decodeProp (.obj pfields) col "number" = .ok .null := by
  simp [decodeProp, decodeNumber, pyGet, dictGetD, h1, h2]

/-- Extracting the text of well-shaped spans succeeds and yields strings. -/
theorem listGet_ok_of_spans (key : String) :
    ∀ ts : List Json, ts.all (spanOk key) = true →
      ∃ ss : List String, listGet key (.str "") ts = .ok (ss.map Json.str) := by
  intro ts
  induction ts with
  | nil => intro _; exact ⟨[], rfl⟩
  | cons x ts' ih =>
    intro hall
    rw [List.all_cons, Bool.and_eq_true] at hall
    obtain ⟨hx, hrest⟩ := hall
    obtain ⟨ss, hss⟩ := ih hrest
    cases x with
    | obj xf =>
      have hx' : ∃ s, dictGetD xf key (.str "") = .str s := by
        revert hx
        simp only [spanOk]
        cases dictGetD xf key (.str "") <;> simp
      obtain ⟨s, hs⟩ := hx'
      exact ⟨s :: ss, by simp only [listGet, pyGet, hs, hss, List.map_cons]⟩
    | null => simp [spanOk] at hx
    | str s => simp [spanOk] at hx
    | num n => simp [spanOk] at hx
    | bool b => simp [spanOk] at hx
    | arr xs => simp [spanOk] at hx

/-- A list of unwrapped strings joins without error. -/
theorem asStrings_map_str : ∀ ss : List String, asStrings (ss.map Json.str) = some ss := by
  intro ss
  induction ss with
  | nil => rfl
  | cons s rest ih => simp [asStrings, ih]

/-- Joining the text of a truthy, well-shaped span value succeeds. -/
theorem joinTexts_ok (sep key : String) (spans : Json)
    (ht : spans.truthy = true) (hw : spansOk key spans = true) :
    ∃ s, joinTexts sep key spans = .ok (.str s) := by
  cases spans with
  | arr ts =>
    rw [spansOk, if_pos ht] at hw
    obtain ⟨ss, hss⟩ := listGet_ok_of_spans key ts hw
    exact ⟨String.intercalate sep ss,
      by simp only [joinTexts, hss, strJoin, asStrings_map_str]⟩
  | null => simp [spansOk, ht] at hw
  | str s => simp [spansOk, ht] at hw
  | num n => simp [spansOk, ht] at hw
  | bool b => simp [spansOk, ht] at hw
  | obj fs => simp [spansOk, ht] at hw

/-- Extracting the ids of a list of dict relation items succeeds. -/
theorem listGet_ok_of_objs (key : String) :
    ∀ items : List Json, items.all Json.isObj = true →
      ∃ vs, listGet key (.str "") items = .ok vs := by
  intro items
  induction items with
  | nil => intro _; exact ⟨[], rfl⟩
  | cons x items' ih =>
    intro hall
    rw [List.all_cons, Bool.and_eq_true] at hall
    obtain ⟨vs, hvs⟩ := ih hall.2
    cases x with
    | obj xf => exact ⟨dictGetD xf key (.str "") :: vs, by simp only [listGet, pyGet, hvs]⟩
    | null => simp [Json.isObj] at hall
    | str s => simp [Json.isObj] at hall
    | num n => simp [Json.isObj] at hall
    | bool b => simp [Json.isObj] at hall
    | arr xs => simp [Json.isObj] at hall

/-- A well-shaped (or absent) `title` property decodes. -/
theorem decodeTitle_ok (pfields : List (String × Json)) (col : String)
    (h : wellShapedAt pfields col "title" = true) :
    ∃ d, decodeTitle (.obj pfields) col = .ok d := by
  unfold wellShapedAt at h
  cases hv : dictGet pfields col with
  | none =>
    exact ⟨.str "", by simp [decodeTitle, pyGet, dictGetD, dictGet, hv, Json.truthy]⟩
  | some v =>
    rw [hv] at h
    cases v with
    | obj vf =>
      have h' : spansOk "plain_text" (dictGetD vf "title" (.arr [])) = true := by
        simpa [wellShapedProp] using h
      have hv1 : dictGetD pfields col (.obj []) = .obj vf := by simp [dictGetD, hv]
      by_cases ht : (dictGetD vf "title" (.arr [])).truthy = true
      · obtain ⟨s, hs⟩ := joinTexts_ok " " "plain_text" _ ht h'
        exact ⟨.str s, by simp [decodeTitle, pyGet, hv1, ht, hs]⟩
      · exact ⟨.str "", by simp [decodeTitle, pyGet, hv1, ht]⟩
    | null => simp [wellShapedProp] at h
    | str s => simp [wellShapedProp] at h
    | num n => simp [wellShapedProp] at h
    | bool b => simp [wellShapedProp] at h
    | arr xs => simp [wellShapedProp] at h

/-- A well-shaped (or absent) `rich_text` property decodes. -/
theorem decodeRichText_ok (pfields : List (String × Json)) (col : String)
    (h : wellShapedAt pfields col "rich_text" = true) :
    ∃ d, decodeRichText (.obj pfields) col = .ok d := by
  unfold wellShapedAt at h
  cases hv : dictGet pfields col with
  | none =>
    exact ⟨.str "", by simp [decodeRichText, pyGet, dictGetD, dictGet, hv, Json.truthy]⟩
  | some v =>
    rw [hv] at h
    cases v with
    | obj vf =>
      have h' : spansOk "plain_text" (dictGetD vf "rich_text" (.arr [])) = true := by
        simpa [wellShapedProp] using h
      have hv1 : dictGetD pfields col (.obj []) = .obj vf := by simp [dictGetD, hv]
      by_cases ht : (dictGetD vf "rich_text" (.arr [])).truthy = true
      · obtain ⟨s, hs⟩ := joinTexts_ok " " "plain_text" _ ht h'
        exact ⟨.str s, by simp [decodeRichText, pyGet, hv1, ht, hs]⟩
      · exact ⟨.str "", by simp [decodeRichText, pyGet, hv1, ht]⟩
    | null => simp [wellShapedProp] at h
    | str s => simp [wellShapedProp] at h
    | num n => simp [wellShapedProp] at h
    | bool b => simp [wellShapedProp] at h
    | arr xs => simp [wellShapedProp] at h

/-- A well-shaped (or absent) `multi_select` property decodes. -/
theorem decodeMultiSelect_ok (pfields : List (String × Json)) (col : String)
    (h : wellShapedAt pfields col "multi_select" = true) :
    ∃ d, decodeMultiSelect (.obj pfields) col = .ok d := by
  unfold wellShapedAt at h
  cases hv : dictGet pfields col with
  | none =>
    exact ⟨.str "", by simp [decodeMultiSelect, pyGet, dictGetD, dictGet, hv, Json.truthy]⟩
  | some v =>
    rw [hv] at h
    cases v with
    | obj vf =>
      have h' : spansOk "name" (dictGetD vf "multi_select" (.arr [])) = true := by
        simpa [wellShapedProp] using h
      have hv1 : dictGetD pfields col (.obj []) = .obj vf := by simp [dictGetD, hv]
      by_cases ht : (dictGetD vf "multi_select" (.arr [])).truthy = true
      · obtain ⟨s, hs⟩ := joinTexts_ok ", " "name" _ ht h'
        exact ⟨.str s, by simp [decodeMultiSelect, pyGet, hv1, ht, hs]⟩
      · exact ⟨.str "", by simp [decodeMultiSelect, pyGet, hv1, ht]⟩
    | null => simp [wellShapedProp] at h
    | str s => simp [wellShapedProp] at h
    | num n => simp [wellShapedProp] at h
    | bool b => simp [wellShapedProp] at h
    | arr xs => simp [wellShapedProp] at h

/-- A well-shaped (or absent) `select` property decodes. -/
theorem decodeSelect_ok (pfields : List (String × Json)) (col : String)
    (h : wellShapedAt pfields col "select" = true) :
    ∃ d, decodeSelect (.obj pfields) col = .ok d := by
  unfold wellShapedAt at h
  cases hv : dictGet pfields col with
  | none =>
    exact ⟨.str "", by simp [decodeSelect, pyGet, dictGetD, dictGet, hv]⟩
  | some v =>
    rw [hv] at h
    cases v with
    | obj vf =>
      have h' : (dictGetD vf "select" (.obj [])).isObj = true := by
        simpa [wellShapedProp] using h
      have hv1 : dictGetD pfields col (.obj []) = .obj vf := by simp [dictGetD, hv]
      cases hsel : dictGetD vf "select" (.obj []) with
      | obj sf =>
        exact ⟨dictGetD sf "name" (.str ""), by simp [decodeSelect, pyGet, hv1, hsel]⟩
      | null => rw [hsel] at h'; simp [Json.isObj] at h'
      | str s => rw [hsel] at h'; simp [Json.isObj] at h'
      | num n => rw [hsel] at h'; simp [Json.isObj] at h'
      | bool b => rw [hsel] at h'; simp [Json.isObj] at h'
      | arr xs => rw [hsel] at h'; simp [Json.isObj] at h'
    | null => simp [wellShapedProp] at h
    | str s => simp [wellShapedProp] at h
    | num n => simp [wellShapedProp] at h
    | bool b => simp [wellShapedProp] at h
    | arr xs => simp [wellShapedProp] at h

/-- A well-shaped (or absent) `date` property decodes. -/
theorem decodeDate_ok (pfields : List (String × Json)) (col : String)
    (h : wellShapedAt pfields col "date" = true) :
    ∃ d, decodeDate (.obj pfields) col = .ok d := by
  unfold wellShapedAt at h
  cases hv : dictGet pfields col with
  | none =>
    exact ⟨.str "", by simp [decodeDate, pyGet, dictGetD, dictGet, hv]⟩
  | some v =>
    rw [hv] at h
    have hv1 : dictGetD pfields col .null = v := by simp [dictGetD, hv]
    cases v with
    | obj vf =>
      cases hd : dictGet vf "date" with
      | none => exact ⟨.str "", by simp [decodeDate, pyGet, hv1, hd]⟩
      | some dv =>
        have h' : (!dv.truthy || dv.isObj) = true := by
          have := h
          simp only [wellShapedProp] at this
          simpa [hd] using this
        by_cases ht : dv.truthy = true
        · have hobj : dv.isObj = true := by
            rw [ht] at h'
            simpa using h'
          cases dv with
          | obj df =>
            exact ⟨dictGetD df "start" (.str ""),
              by simp [decodeDate, pyGet, hv1, hd, ht]⟩
          | null => simp [Json.isObj] at hobj
          | str s => simp [Json.isObj] at hobj
          | num n => simp [Json.isObj] at hobj
          | bool b => simp [Json.isObj] at hobj
          | arr xs => simp [Json.isObj] at hobj
        · exact ⟨.str "", by simp [decodeDate, pyGet, hv1, hd, ht]⟩
    | null => exact ⟨.str "", by simp [decodeDate, pyGet, hv1]⟩
    | str s => exact ⟨.str "", by simp [decodeDate, pyGet, hv1]⟩
    | num n => exact ⟨.str "", by simp [decodeDate, pyGet, hv1]⟩
    | bool b => exact ⟨.str "", by simp [decodeDate, pyGet, hv1]⟩
    | arr xs => exact ⟨.str "", by simp [decodeDate, pyGet, hv1]⟩

/-- A well-shaped (or absent) `number` property decodes. -/
theorem decodeNumber_ok (pfields : List (String × Json)) (col : String)
    (h : wellShapedAt pfields col "number" = true) :
    ∃ d, decodeNumber (.obj pfields) col = .ok d := by
  unfold wellShapedAt at h
  cases hv : dictGet pfields col with
  | none =>
    exact ⟨.num 0, by simp [decodeNumber, pyGet, dictGetD, dictGet, hv]⟩
  | some v =>
    rw [hv] at h
    have h' : v.isObj = true := by simpa [wellShapedProp] using h
    have hv1 : dictGetD pfields col (.obj []) = v := by simp [dictGetD, hv]
    cases v with
    | obj nf => exact ⟨dictGetD nf "number" (.num 0), by simp [decodeNumber, pyGet, hv1]⟩
    | null => simp [Json.isObj] at h'
    | str s => simp [Json.isObj] at h'
    | num n => simp [Json.isObj] at h'
    | bool b => simp [Json.isObj] at h'
    | arr xs => simp [Json.isObj] at h'

/-- A well-shaped (or absent) `relation` property decodes. -/
theorem decodeRelation_ok (pfields : List (String × Json)) (col : String)
    (h : wellShapedAt pfields col "relation" = true) :
    ∃ d, decodeRelation (.obj pfields) col = .ok d := by
  unfold wellShapedAt at h
  cases hv : dictGet pfields col with
  | none =>
    exact ⟨.arr [], by simp [decodeRelation, pyGet, dictGetD, dictGet, hv, Json.truthy]⟩
  | some v =>
    rw [hv] at h
    cases v with
    | obj vf =>
      have hv1 : dictGetD pfields col (.obj []) = .obj vf := by simp [dictGetD, hv]
      cases hrel : dictGetD vf "relation" (.arr []) with
      | arr items =>
        have h' : items.all Json.isObj = true := by
          have := h
          simp only [wellShapedProp] at this
          simpa [hrel] using this
        by_cases ht : (Json.arr items).truthy = true
        · obtain ⟨vs, hvs⟩ := listGet_ok_of_objs "id" items h'
          exact ⟨.arr vs, by simp [decodeRelation, pyGet, hv1, hrel, ht, hvs]⟩
        · exact ⟨.arr [], by simp [decodeRelation, pyGet, hv1, hrel, ht]⟩
      | null => exact ⟨.arr [], by simp [decodeRelation, pyGet, hv1, hrel, Json.truthy]⟩
      | str s =>
        have h' : (Json.str s).truthy = false := by
          have := h
          simp only [wellShapedProp] at this
          simpa [hrel] using this
        exact ⟨.arr [], by simp [decodeRelation, pyGet, hv1, hrel, h']⟩
      | num n =>
        have h' : (Json.num n).truthy = false := by
          have := h
          simp only [wellShapedProp] at this
          simpa [hrel] using this
        exact ⟨.arr [], by simp [decodeRelation, pyGet, hv1, hrel, h']⟩
      | bool b =>
        have h' : (Json.bool b).truthy = false := by
          have := h
          simp only [wellShapedProp] at this
          simpa [hrel] using this
        exact ⟨.arr [], by simp [decodeRelation, pyGet, hv1, hrel, h']⟩
      | obj fs =>
        have h' : (Json.obj fs).truthy = false := by
          have := h
          simp only [wellShapedProp] at this
          simpa [hrel] using this
        exact ⟨.arr [], by simp [decodeRelation, pyGet, hv1, hrel, h']⟩
    | null => simp [wellShapedProp] at h
    | str s => simp [wellShapedProp] at h
    | num n => simp [wellShapedProp] at h
    | bool b => simp [wellShapedProp] at h
    | arr xs => simp [wellShapedProp] at h

/-- A well-shaped (or absent) `phone_number` property decodes. -/
theorem decodePhone_ok (pfields : List (String × Json)) (col : String)
    (h : wellShapedAt pfields col "phone_number" = true) :
    ∃ d, decodePhone (.obj pfields) col = .ok d := by
  unfold wellShapedAt at h
  cases hv : dictGet pfields col with
  | none =>
    exact ⟨.str "", by simp [decodePhone, pyGet, dictGetD, dictGet, hv]⟩
  | some v =>
    rw [hv] at h
    have h' : v.isObj = true := by simpa [wellShapedProp] using h
    have hv1 : dictGetD pfields col (.obj []) = v := by simp [dictGetD, hv]
    cases v with
    | obj nf =>
      exact ⟨dictGetD nf "phone_number" (.str ""), by simp [decodePhone, pyGet, hv1]⟩
    | null => simp [Json.isObj] at h'
    | str s => simp [Json.isObj] at h'
    | num n => simp [Json.isObj] at h'
    | bool b => simp [Json.isObj] at h'
    | arr xs => simp [Json.isObj] at h'

/-- A well-shaped (or absent) `email` property decodes. -/
theorem decodeEmail_ok (pfields : List (String × Json)) (col : String)
    (h : wellShapedAt pfields col "email" = true) :
    ∃ d, decodeEmail (.obj pfields) col = .ok d := by
  unfold wellShapedAt at h
  cases hv : dictGet pfields col with
  | none =>
    exact ⟨.str "", by simp [decodeEmail, pyGet, dictGetD, dictGet, hv]⟩
  | some v =>
    rw [hv] at h
    have h' : v.isObj = true := by simpa [wellShapedProp] using h
    have hv1 : dictGetD pfields col (.obj []) = v := by simp [dictGetD, hv]
    cases v with
    | obj nf =>
      exact ⟨dictGetD nf "email" (.str ""), by simp [decodeEmail, pyGet, hv1]⟩
    | null => simp [Json.isObj] at h'
    | str s => simp [Json.isObj] at h'
    | num n => simp [Json.isObj] at h'
    | bool b => simp [Json.isObj] at h'
    | arr xs => simp [Json.isObj] at h'

/-- Decoding a column with an absent or well-shaped property never raises,
whatever the declared kind. -/
theorem decodeProp_ok_of_wellShaped (pfields : List (String × Json)) (col kind : String)
    (h : wellShapedAt pfields col kind = true) :
    ∃ d, decodeProp (.obj pfields) col kind = .ok d := by
  by_cases h1 : kind = "title"
  · subst h1
    obtain ⟨d, hd⟩ := decodeTitle_ok pfields col h
    exact ⟨d, by simpa [decodeProp] using hd⟩
  by_cases h2 : kind = "select"
  · subst h2
    obtain ⟨d, hd⟩ := decodeSelect_ok pfields col h
    exact ⟨d, by simpa [decodeProp] using hd⟩
  by_cases h3 : kind = "multi_select"
  · subst h3
    obtain ⟨d, hd⟩ := decodeMultiSelect_ok pfields col h
    exact ⟨d, by simpa [decodeProp] using hd⟩
  by_cases h4 : kind = "date"
  · subst h4
    obtain ⟨d, hd⟩ := decodeDate_ok pfields col h
    exact ⟨d, by simpa [decodeProp] using hd⟩
  by_cases h5 : kind = "number"
  · subst h5
    obtain ⟨d, hd⟩ := decodeNumber_ok pfields col h
    exact ⟨d, by simpa [decodeProp] using hd⟩
  by_cases h6 : kind = "relation"
  · subst h6
    obtain ⟨d, hd⟩ := decodeRelation_ok pfields col h
    exact ⟨d, by simpa [decodeProp] using hd⟩
  by_cases h7 : kind = "rich_text"
  · subst h7
    obtain ⟨d, hd⟩ := decodeRichText_ok pfields col h
    exact ⟨d, by simpa [decodeProp] using hd⟩
  by_cases h8 : kind = "phone_number"
  · subst h8
    obtain ⟨d, hd⟩ := decodePhone_ok pfields col h
    exact ⟨d, by simpa [decodeProp] using hd⟩
  by_cases h9 : kind = "email"
  · subst h9
    obtain ⟨d, hd⟩ := decodeEmail_ok pfields col h
    exact ⟨d, by simpa [decodeProp] using hd⟩
  exact ⟨.str "", by simp [decodeProp, h1, h2, h3, h4, h5, h6, h7, h8, h9]⟩

/-- Flattening a well-shaped raw record never raises. -/
theorem parseRecord_ok_of_wellShaped (mapping : List (String × String)) (r : Json)
    (h : wellShapedRecord mapping r = true) :
    ∃ rec, parseRecord mapping r = .ok rec := by
  cases r with
  | obj rfields =>
    rw [parseRecord_obj]
    cases hp : dictGetD rfields "properties" (.obj []) with
    | obj pfields =>
      refine flattenProps_total _ _ _ ?_
      intro ck hm
      have hall : mapping.all (fun ck => wellShapedAt pfields ck.1 ck.2) = true := by
        have := h
        simp only [wellShapedRecord] at this
        simpa [hp] using this
      exact decodeProp_ok_of_wellShaped pfields ck.1 ck.2
        (List.all_eq_true.mp hall ck hm)
    | null => simp [wellShapedRecord, hp] at h
    | str s => simp [wellShapedRecord, hp] at h
    | num n => simp [wellShapedRecord, hp] at h
    | bool b => simp [wellShapedRecord, hp] at h
    | arr xs => simp [wellShapedRecord, hp] at h
  | null => simp [wellShapedRecord] at h
  | str s => simp [wellShapedRecord] at h
  | num n => simp [wellShapedRecord] at h
  | bool b => simp [wellShapedRecord] at h
  | arr xs => simp [wellShapedRecord] at h

/-- A key matching no pair of the dict is not found. -/
theorem assocGet_eq_none (idx : List (Json × Json)) (key : Json)
    (h : ∀ kv ∈ idx, kv.1 ≠ key) : assocGet idx key = none := by
  induction idx with
  | nil => rfl
  | cons kv rest ih =>
    have h1 : kv.1 ≠ key := h kv (List.mem_cons_self kv rest)
    simp only [assocGet]
    rw [if_neg (by simpa using h1)]
    exact ih (fun kv' hm => h kv' (List.mem_cons_of_mem kv hm))

/-- A found value is stored in some pair of the dict. -/
theorem assocGet_mem (idx : List (Json × Json)) (key v : Json)
    (h : assocGet idx key = some v) : ∃ k, (k, v) ∈ idx := by
  induction idx with
  | nil => cases h
  | cons kv rest ih =>
    simp only [assocGet] at h
    by_cases hb : Json.beq kv.1 key = true
    · rw [if_pos hb] at h
      cases h
      exact ⟨kv.1, by simp⟩
    · rw [if_neg hb] at h
      obtain ⟨k, hk⟩ := ih h
      exact ⟨k, List.mem_cons_of_mem kv hk⟩

/-! ## The claims -/

/-- Claim C1 (falsified as stated): flattening is claimed total at the
property level, with a null or mis-shaped type-tagged nested value decoding
to the kind's default.  Counterexample: a raw page whose single record has a
present `select` property storing `{"select": null}` — the real Notion shape
of a cleared select — makes `parse_notion_data` raise `AttributeError`
(`None.get("name", "")`), even though the page's `results` field is a
proper list of records. -/
theorem parse_raises_on_null_select :
    parse_notion_data
      (.obj [("results", .arr [.obj [("id", .str "p1"),
        ("properties", .obj [("Estado", .obj [("select", .null)])])]])])
      [("Estado", "select")] = .error .attrError := rfl

/-- Claim C1 (amended): for every schema and every raw page whose results
field is a list of records, flattening never raises provided each record is
a dict whose properties dict holds, for every declared column, either no
entry or a well-shaped one: the property value itself a dict; for `select` a
dict (not null) under the `"select"` key; for `date` a dict under a truthy
`"date"` key; for `title`/`rich_text`/`multi_select` a falsy or
list-of-dicts span array with string text fields; for `relation` a falsy
value or a list of dicts.  Absent properties and falsy nested values decode
to the kind's default; outside these shapes a single malformed property
raises and fails the whole page. -/
theorem flatten_total_of_wellShaped (data : Json) (mapping : List (String × String))
    (rs : List Json)
    (hres : pyGet data "results" (.arr []) = .ok (.arr rs))
    (hws : ∀ r ∈ rs, wellShapedRecord mapping r = true) :
    ∃ table, parse_notion_data data mapping = .ok table := by
  obtain ⟨t, ht⟩ := parseResults_total mapping rs
    (fun r hm => parseRecord_ok_of_wellShaped mapping r (hws r hm))
  refine ⟨t, ?_⟩
  simp only [parse_notion_data, hres]
  exact ht

/-- Witness for the amended C1: a page mixing a null title value, a
populated relation, an empty property dict for a number, a null date and a
fully absent select flattens without raising. -/
theorem flatten_total_of_wellShaped_witness :
    ∃ table, parse_notion_data
      (.obj [("results", .arr [.obj [("id", .str "w1"),
        ("properties", .obj
          [("Nombre", .obj [("title", .null)]),
           ("Rel", .obj [("relation", .arr [.obj [("id", .str "x")]])]),
           ("Val", .obj []),
           ("Fecha", .obj [("date", .null)])])]])])
      [("Nombre", "title"), ("Rel", "relation"), ("Val", "number"),
       ("Fecha", "date"), ("Ausente", "select")] = .ok table :=
  flatten_total_of_wellShaped _ _ _ rfl (by decide)

/-- Claim C2 (code bug): the spec says a non-2xx response leaves that
table's flat table empty and lets the remaining four tables finish their
fetch, flattening, date conversion and label-index construction.  The code
instead crashes for four of the five tables: a failed fetch leaves an empty
`pd.DataFrame()` with no columns, and the unconditional
`dict(zip(df_clientes["NotionID"], df_clientes["Nombre"]))` (and its three
siblings) then raises `KeyError`.  Evaluated here: every other table
returns one well-formed record, the clients fetch returns 500, and the
pipeline up to the label indices raises `KeyError` instead of completing. -/
theorem pipeline_keyerror_on_failed_clientes_fetch :
    runPipeline
      (HttpResponse.mk 200 (.obj [("results", .arr
        [.obj [("id", .str "a"), ("properties", .obj [])]])]))
      (HttpResponse.mk 200 (.obj [("results", .arr
        [.obj [("id", .str "a"), ("properties", .obj [])]])]))
      (HttpResponse.mk 200 (.obj [("results", .arr
        [.obj [("id", .str "a"), ("properties", .obj [])]])]))
      (HttpResponse.mk 500 (.obj []))
      (HttpResponse.mk 200 (.obj [("results", .arr
        [.obj [("id", .str "a"), ("properties", .obj [])]])]))
      = .error .keyError := rfl

/-- Claim C3 (confirmed): for every schema and raw record whose property
for column `C` is fully absent from the record's properties dict, the
flattened record maps `C` to the kind's documented default: `0` for
`number`, the empty list for `relation`, the empty string for `title`,
`select`, `multi_select`, `date`, `rich_text`, `phone_number`, `email` and
any unrecognized kind. -/
theorem absent_property_maps_to_kind_default
    (mapping : List (String × String)) (rfields pfields : List (String × Json))
    (C kind : String) (rec : FlatRecord)
    (hprops : dictGetD rfields "properties" (.obj []) = .obj pfields)
    (habsent : dictGet pfields C = none)
    (hmem : (C, kind) ∈ mapping)
    (hnodup : (mapping.map Prod.fst).Nodup)
    (hok : parseRecord mapping (.obj rfields) = .ok rec) :
    dictGet rec C = some (kindDefault kind) := by
  rw [parseRecord_obj, hprops] at hok
  exact flattenProps_get_of_mem _ _ _ _ _ _ _ hmem hnodup
    (decodeProp_absent pfields C kind habsent) hok

/-- Witness for C3: an absent `number` property flattens to `0`. -/
theorem absent_property_maps_to_kind_default_witness :
    dictGet [("NotionID", Json.str "p1"), ("Valor", Json.num 0)] "Valor"
      = some (kindDefault "number") :=
  absent_property_maps_to_kind_default [("Valor", "number")]
    [("id", .str "p1"), ("properties", .obj [])] [] "Valor" "number"
    [("NotionID", .str "p1"), ("Valor", .num 0)]
    rfl rfl (by simp) (by simp) rfl

/-- Claim C4 (confirmed): relation resolution uses only the first
identifier of the relation list.  For every label index mapping string
identifiers to string labels and every default: an empty list resolves to
the default; a first identifier missing from the index resolves to the
default whatever the later identifiers are; a first identifier present in
the index resolves to its label. -/
theorem resolveRelation_first_identifier_only
    (idx : List (Json × Json)) (dflt i : String) (rest : List Json)
    (hidx : ∀ kv ∈ idx, (∃ s, kv.1 = Json.str s) ∧ ∃ t, kv.2 = Json.str t) :
    resolveRelation (.arr []) idx dflt = .str dflt ∧
    (assocGet idx (.str i) = none →
      resolveRelation (.arr (.str i :: rest)) idx dflt = .str dflt) ∧
    ∀ lbl, assocGet idx (.str i) = some lbl →
      resolveRelation (.arr (.str i :: rest)) idx dflt = lbl := by
  refine ⟨?_, ?_, ?_⟩
  · have hnone : assocGet idx Json.null = none := by
      refine assocGet_eq_none idx Json.null ?_
      intro kv hm
      obtain ⟨⟨s, hs⟩, _⟩ := hidx kv hm
      rw [hs]
      intro hc
      cases hc
    simp [resolveRelation, firstId, hnone]
  · intro hmiss
    simp [resolveRelation, firstId, hmiss]
  · intro lbl hhit
    obtain ⟨k, hk⟩ := assocGet_mem idx (.str i) lbl hhit
    obtain ⟨_, ⟨t, ht⟩⟩ := hidx (k, lbl) hk
    have ht' : lbl = Json.str t := ht
    subst ht'
    simp [resolveRelation, firstId, hhit]

/-- Witness for C4: with index mapping `x1` to `Acme`, an empty relation
resolves to the default and `[x1, zz]` resolves to `Acme` ignoring `zz`. -/
theorem resolveRelation_first_identifier_only_witness :
    resolveRelation (.arr []) [(Json.str "x1", Json.str "Acme")] "none"
        = .str "none" ∧
    resolveRelation (.arr [Json.str "x1", Json.str "zz"])
        [(Json.str "x1", Json.str "Acme")] "none" = Json.str "Acme" := by
  have h := resolveRelation_first_identifier_only
    [(Json.str "x1", Json.str "Acme")] "none" "x1" [Json.str "zz"]
    (by intro kv hm
        rw [List.mem_singleton] at hm
        subst hm
        exact ⟨⟨"x1", rfl⟩, ⟨"Acme", rfl⟩⟩)
  exact ⟨h.1, h.2.2 (Json.str "Acme") rfl⟩

/-- A successfully built label index is the zip-dict of the frame's id and
name columns. -/
theorem buildLabelIndex_ok (df : List FlatRecord) (idx : List (Json × Json))
    (hok : buildLabelIndex df = .ok idx) :
    idx = dictZip (df.map (fun r => dictGetD r "NotionID" .null))
                  (df.map (fun r => dictGetD r "Nombre" .null)) := by
  unfold buildLabelIndex at hok
  cases hi : seriesGet df "NotionID" with
  | error e => rw [hi] at hok; cases hok
  | ok ids =>
    rw [hi] at hok
    cases hn : seriesGet df "Nombre" with
    | error e => rw [hn] at hok; cases hok
    | ok names =>
      rw [hn] at hok
      cases hok
      unfold seriesGet at hi hn
      split at hi
      · split at hn
        · cases hi; cases hn; rfl
        · cases hn
      · cases hi

/-- Claim C5 (falsified as stated): the claim promises, for every schema,
a reserved `NotionID` field holding the raw record's identifier.  But a
schema may itself declare a column named `NotionID`, and the decoded
property then overwrites the reserved entry: here the record has id `p1`,
yet the flat record's `NotionID` holds the number default `0`, not `p1`. -/
theorem notionid_overwritten_by_schema_column :
    parse_notion_data
      (.obj [("results", .arr [.obj [("id", .str "p1"), ("properties", .obj [])]])])
      [("NotionID", "number")]
      = .ok [[("NotionID", Json.num 0)]] ∧
    dictGet [("NotionID", Json.num 0)] "NotionID" ≠ some (Json.str "p1") :=
  ⟨rfl, by simp [dictGet]⟩

/-- Claim C5 (amended): for every schema that does not itself declare the
reserved column name `NotionID`, and every raw page whose results field is
a list of records, every record of the flat table has an entry for every
declared schema key and a `NotionID` entry holding the raw record's
identifier (`result.get("id", "")`). -/
theorem flat_records_complete_with_notion_id
    (data : Json) (mapping : List (String × String)) (rs : List Json)
    (table : List FlatRecord)
    (hres : pyGet data "results" (.arr []) = .ok (.arr rs))
    (hok : parse_notion_data data mapping = .ok table)
    (hreserved : "NotionID" ∉ mapping.map Prod.fst) :
    table.length = rs.length ∧
    ∀ i (hi : i < table.length) (hi' : i < rs.length),
      (∀ C ∈ mapping.map Prod.fst, (dictGet table[i] C).isSome = true) ∧
      ∃ rfields, rs[i] = Json.obj rfields ∧
        dictGet table[i] "NotionID" = some (dictGetD rfields "id" (.str "")) := by
  simp only [parse_notion_data, hres] at hok
  obtain ⟨hlen, hpt⟩ := parseResults_spec mapping rs table hok
  refine ⟨hlen, ?_⟩
  intro i hi hi'
  have hpr := hpt i hi hi'
  obtain ⟨rfields, hrf⟩ := parseRecord_ok_obj mapping rs[i] table[i] hpr
  rw [hrf, parseRecord_obj] at hpr
  constructor
  · intro C hC
    rw [flattenProps_isSome_iff _ _ _ _ _ hpr]
    exact Or.inr hC
  · refine ⟨rfields, hrf, ?_⟩
    rw [flattenProps_get_of_not_mem _ _ _ _ _ hreserved hpr]
    simp [dictGet]

/-- Witness for the amended C5: a one-record page under the schema
`Valor : number` yields a flat record with both keys, `NotionID`
holding the page id. -/
theorem flat_records_complete_with_notion_id_witness :
    ([[("NotionID", Json.str "p1"), ("Valor", Json.num 0)]] : List FlatRecord).length
      = ([Json.obj [("id", Json.str "p1"), ("properties", Json.obj [])]] : List Json).length ∧
    ∀ i (hi : i < ([[("NotionID", Json.str "p1"), ("Valor", Json.num 0)]] :
          List FlatRecord).length)
      (hi' : i < ([Json.obj [("id", Json.str "p1"), ("properties", Json.obj [])]] :
          List Json).length),
      (∀ C ∈ ([("Valor", "number")] : List (String × String)).map Prod.fst,
        (dictGet ([[("NotionID", Json.str "p1"), ("Valor", Json.num 0)]] :
          List FlatRecord)[i] C).isSome = true) ∧
      ∃ rfields,
        ([Json.obj [("id", Json.str "p1"), ("properties", Json.obj [])]] :
          List Json)[i] = Json.obj rfields ∧
        dictGet ([[("NotionID", Json.str "p1"), ("Valor", Json.num 0)]] :
          List FlatRecord)[i] "NotionID"
          = some (dictGetD rfields "id" (.str "")) :=
  flat_records_complete_with_notion_id
    (.obj [("results", .arr [.obj [("id", .str "p1"), ("properties", .obj [])]])])
    [("Valor", "number")]
    [Json.obj [("id", Json.str "p1"), ("properties", Json.obj [])]]
    [[("NotionID", Json.str "p1"), ("Valor", Json.num 0)]]
    rfl rfl (by simp)

/-- Claim C6 (confirmed): when a flat table holds two or more records with
the same entity identifier, the label index maps that identifier to the
label (`Nombre`) of the last such record — last-write-wins, as in Python's
`dict(zip(ids, names))`. -/
theorem label_index_last_write_wins
    (p s : List FlatRecord) (rj : FlatRecord) (idJson lbl : Json)
    (idx : List (Json × Json))
    (hok : buildLabelIndex (p ++ rj :: s) = .ok idx)
    (hid : dictGetD rj "NotionID" .null = idJson)
    (hlbl : dictGetD rj "Nombre" .null = lbl)
    (_hdup : ∃ r ∈ p, dictGetD r "NotionID" .null = idJson)
    (hlast : ∀ r ∈ s, dictGetD r "NotionID" .null ≠ idJson) :
    assocGet idx idJson = some lbl := by
  have hidx := buildLabelIndex_ok _ _ hok
  subst hidx
  rw [dictZip, List.zip_map']
  rw [assocGet_buildDict]
  have hs_none : lastWrite
      (List.map (fun r => (dictGetD r "NotionID" .null, dictGetD r "Nombre" .null)) s)
      idJson = none := by
    refine lastWrite_eq_none _ _ ?_
    intro kv hm
    obtain ⟨r, hr, rfl⟩ := List.mem_map.mp hm
    exact hlast r hr
  have hlw : lastWrite
      (List.map (fun r => (dictGetD r "NotionID" .null, dictGetD r "Nombre" .null))
        (p ++ rj :: s)) idJson = some lbl := by
    rw [List.map_append, List.map_cons, lastWrite_append]
    have hcons : lastWrite
        ((dictGetD rj "NotionID" .null, dictGetD rj "Nombre" .null) ::
          List.map (fun r => (dictGetD r "NotionID" .null, dictGetD r "Nombre" .null)) s)
        idJson = some lbl := by
      simp only [lastWrite, hs_none]
      rw [hid, hlbl]
      simp
    rw [hcons]
  rw [hlw]

/-- Witness for C6: ids `x, x, y` with labels `A, C, B` index `x` to `C`,
the label of the last duplicate. -/
theorem label_index_last_write_wins_witness :
    assocGet [(Json.str "x", Json.str "C"), (Json.str "y", Json.str "B")]
      (Json.str "x") = some (Json.str "C") :=
  label_index_last_write_wins
    [[("NotionID", Json.str "x"), ("Nombre", Json.str "A")]]
    [[("NotionID", Json.str "y"), ("Nombre", Json.str "B")]]
    [("NotionID", Json.str "x"), ("Nombre", Json.str "C")]
    (Json.str "x") (Json.str "C")
    [(Json.str "x", Json.str "C"), (Json.str "y", Json.str "B")]
    rfl rfl rfl
    ⟨[("NotionID", Json.str "x"), ("Nombre", Json.str "A")], by simp, rfl⟩
    (by intro r hr
        rw [List.mem_singleton] at hr
        subst hr
        simp [dictGetD, dictGet])

/-- Claim C7 (confirmed): flattening a raw page whose results field is a
list of records yields exactly one flat record per raw record, in page
order. -/
theorem flatten_one_record_per_raw_in_order
    (data : Json) (mapping : List (String × String)) (rs : List Json)
    (table : List FlatRecord)
    (hres : pyGet data "results" (.arr []) = .ok (.arr rs))
    (hok : parse_notion_data data mapping = .ok table) :
    table.length = rs.length ∧
    ∀ i (hi : i < table.length) (hi' : i < rs.length),
      parseRecord mapping rs[i] = .ok table[i] := by
  simp only [parse_notion_data, hres] at hok
  exact parseResults_spec mapping rs table hok

/-- Witness for C7: a two-record page flattens to two records in order
(`Alpha` before `Beta`). -/
theorem flatten_one_record_per_raw_in_order_witness :
    ([[("NotionID", Json.str "a"), ("Nombre", Json.str "Alpha")],
      [("NotionID", Json.str "b"), ("Nombre", Json.str "Beta")]] : List FlatRecord).length
      = ([Json.obj [("id", Json.str "a"), ("properties", Json.obj
            [("Nombre", Json.obj [("title", Json.arr
              [Json.obj [("plain_text", Json.str "Alpha")]])])])],
          Json.obj [("id", Json.str "b"), ("properties", Json.obj
            [("Nombre", Json.obj [("title", Json.arr
              [Json.obj [("plain_text", Json.str "Beta")]])])])]] : List Json).length ∧
    ∀ i (hi : i < ([[("NotionID", Json.str "a"), ("Nombre", Json.str "Alpha")],
          [("NotionID", Json.str "b"), ("Nombre", Json.str "Beta")]] :
            List FlatRecord).length)
      (hi' : i < ([Json.obj [("id", Json.str "a"), ("properties", Json.obj
            [("Nombre", Json.obj [("title", Json.arr
              [Json.obj [("plain_text", Json.str "Alpha")]])])])],
          Json.obj [("id", Json.str "b"), ("properties", Json.obj
            [("Nombre", Json.obj [("title", Json.arr
              [Json.obj [("plain_text", Json.str "Beta")]])])])]] : List Json).length),
      parseRecord [("Nombre", "title")]
        ([Json.obj [("id", Json.str "a"), ("properties", Json.obj
            [("Nombre", Json.obj [("title", Json.arr
              [Json.obj [("plain_text", Json.str "Alpha")]])])])],
          Json.obj [("id", Json.str "b"), ("properties", Json.obj
            [("Nombre", Json.obj [("title", Json.arr
              [Json.obj [("plain_text", Json.str "Beta")]])])])]] : List Json)[i]
        = .ok (([[("NotionID", Json.str "a"), ("Nombre", Json.str "Alpha")],
          [("NotionID", Json.str "b"), ("Nombre", Json.str "Beta")]] :
            List FlatRecord)[i]) :=
  flatten_one_record_per_raw_in_order
    (.obj [("results", .arr
      [.obj [("id", .str "a"), ("properties", .obj
        [("Nombre", .obj [("title", .arr [.obj [("plain_text", .str "Alpha")]])])])],
       .obj [("id", .str "b"), ("properties", .obj
        [("Nombre", .obj [("title", .arr [.obj [("plain_text", .str "Beta")]])])])]])])
    [("Nombre", "title")]
    [Json.obj [("id", Json.str "a"), ("properties", Json.obj
        [("Nombre", Json.obj [("title", Json.arr
          [Json.obj [("plain_text", Json.str "Alpha")]])])])],
      Json.obj [("id", Json.str "b"), ("properties", Json.obj
        [("Nombre", Json.obj [("title", Json.arr
          [Json.obj [("plain_text", Json.str "Beta")]])])])]]
    [[("NotionID", Json.str "a"), ("Nombre", Json.str "Alpha")],
      [("NotionID", Json.str "b"), ("Nombre", Json.str "Beta")]]
    rfl rfl

/-- Claim C8 (confirmed): building the label index twice from the same flat
table yields identical dicts, and in particular identical mappings at every
key. -/
theorem buildLabelIndex_deterministic
    (df : List FlatRecord) (idx1 idx2 : List (Json × Json))
    (h1 : buildLabelIndex df = .ok idx1) (h2 : buildLabelIndex df = .ok idx2) :
    idx1 = idx2 ∧ ∀ k, assocGet idx1 k = assocGet idx2 k := by
  have h := h1.symm.trans h2
  cases h
  exact ⟨rfl, fun k => rfl⟩

/-- Witness for C8: two builds from a one-record table agree. -/
theorem buildLabelIndex_deterministic_witness :
    ([(Json.str "x", Json.str "A")] : List (Json × Json))
        = [(Json.str "x", Json.str "A")] ∧
    ∀ k, assocGet [(Json.str "x", Json.str "A")] k
        = assocGet [(Json.str "x", Json.str "A")] k :=
  buildLabelIndex_deterministic
    [[("NotionID", Json.str "x"), ("Nombre", Json.str "A")]]
    [(Json.str "x", Json.str "A")] [(Json.str "x", Json.str "A")]
    rfl rfl

/-- Claim C9 (confirmed): a `number` property present in the properties
dict with a null nested value flattens to `null` (Python `None`), not to
the default `0`; the `0` default arises only from a fully absent key (see
C3's theorem). -/
theorem number_null_yields_none
    (mapping : List (String × String)) (rfields pfields nfields : List (String × Json))
    (C : String) (rec : FlatRecord)
    (hprops : dictGetD rfields "properties" (.obj []) = .obj pfields)
    (hprop : dictGet pfields C = some (.obj nfields))
    (hnull : dictGet nfields "number" = some .null)
    (hmem : (C, "number") ∈ mapping)
    (hnodup : (mapping.map Prod.fst).Nodup)
    (hok : parseRecord mapping (.obj rfields) = .ok rec) :
    dictGet rec C = some Json.null ∧ Json.null ≠ Json.num 0 := by
  constructor
  · rw [parseRecord_obj, hprops] at hok
    exact flattenProps_get_of_mem _ _ _ _ _ _ _ hmem hnodup
      (decodeProp_number_null pfields nfields C hprop hnull) hok
  · simp

/-- Witness for C9: `{"Valor": {"number": null}}` flattens `Valor` to
`null`. -/
theorem number_null_yields_none_witness :
    dictGet [("NotionID", Json.str "p1"), ("Valor", Json.null)] "Valor"
        = some Json.null ∧ Json.null ≠ Json.num 0 :=
  number_null_yields_none [("Valor", "number")]
    [("id", .str "p1"), ("properties", .obj [("Valor", .obj [("number", .null)])])]
    [("Valor", .obj [("number", .null)])] [("number", .null)]
    "Valor" [("NotionID", .str "p1"), ("Valor", .null)]
    rfl rfl rfl (by simp) (by simp) rfl

/-- Claim C10 (confirmed): the keys of every flat record are exactly the
declared schema keys plus `NotionID`; raw properties outside the schema are
dropped and never appear. -/
theorem flat_record_keys_exactly_schema_plus_id
    (data : Json) (mapping : List (String × String)) (table : List FlatRecord)
    (hok : parse_notion_data data mapping = .ok table) :
    ∀ rec ∈ table, ∀ K,
      (dictGet rec K).isSome = true ↔ (K = "NotionID" ∨ K ∈ mapping.map Prod.fst) := by
  intro rec hm K
  simp only [parse_notion_data] at hok
  cases hr : pyGet data "results" (.arr []) with
  | error e => rw [hr] at hok; cases hok
  | ok results =>
    rw [hr] at hok
    cases results with
    | arr rs =>
      obtain ⟨r, -, hpr⟩ := parseResults_mem mapping rs table rec hok hm
      obtain ⟨rfields, rfl⟩ := parseRecord_ok_obj mapping r rec hpr
      rw [parseRecord_obj] at hpr
      rw [flattenProps_isSome_iff _ _ _ _ _ hpr]
      by_cases hK : K = "NotionID"
      · simp [dictGet, hK]
      · simp [dictGet, hK, Ne.symm hK]
    | null => cases hok
    | str sVal =>
      replace hok : (if sVal.isEmpty then (Except.ok ([] : List FlatRecord))
          else Except.error PyErr.attrError) = Except.ok table := hok
      by_cases hs : sVal.isEmpty
      · rw [if_pos hs] at hok
        cases hok
        simp at hm
      · rw [if_neg hs] at hok
        cases hok
    | num n => cases hok
    | bool b => cases hok
    | obj fsVal =>
      replace hok : (if fsVal.isEmpty then (Except.ok ([] : List FlatRecord))
          else Except.error PyErr.attrError) = Except.ok table := hok
      by_cases hs : fsVal.isEmpty
      · rw [if_pos hs] at hok
        cases hok
        simp at hm
      · rw [if_neg hs] at hok
        cases hok

/-- Witness for C10: a record with an undeclared raw property `Extra` keeps
the declared `Valor` but drops `Extra`, whose key is neither `NotionID` nor
a schema key. -/
theorem flat_record_keys_exactly_schema_plus_id_witness :
    ((dictGet [("NotionID", Json.str "p1"), ("Valor", Json.num 7)] "Extra").isSome
        = true ↔
      ("Extra" = "NotionID" ∨ "Extra" ∈ ([("Valor", "number")] :
        List (String × String)).map Prod.fst)) ∧
    ((dictGet [("NotionID", Json.str "p1"), ("Valor", Json.num 7)] "Valor").isSome
        = true ↔
      ("Valor" = "NotionID" ∨ "Valor" ∈ ([("Valor", "number")] :
        List (String × String)).map Prod.fst)) :=
  ⟨flat_record_keys_exactly_schema_plus_id
    (.obj [("results", .arr [.obj [("id", .str "p1"),
      ("properties", .obj [("Extra", .str "junk"),
        ("Valor", .obj [("number", .num 7)])])]])])
    [("Valor", "number")]
    [[("NotionID", Json.str "p1"), ("Valor", Json.num 7)]]
    rfl [("NotionID", Json.str "p1"), ("Valor", Json.num 7)] (by simp) "Extra",
   flat_record_keys_exactly_schema_plus_id
    (.obj [("results", .arr [.obj [("id", .str "p1"),
      ("properties", .obj [("Extra", .str "junk"),
        ("Valor", .obj [("number", .num 7)])])]])])
    [("Valor", "number")]
    [[("NotionID", Json.str "p1"), ("Valor", Json.num 7)]]
    rfl [("NotionID", Json.str "p1"), ("Valor", Json.num 7)] (by simp) "Valor"⟩

end NotionDashboard
